import Mathlib

/-!
# gym-ops: credential and identity subsystem

A shallow embedding of `backend/internal/data` (`user.go`, `token.go`,
`models.go`) together with the properties of its password handling, token
claims, validation and storage error mapping.

Conventions of the embedding

* A Go `string` is a Lean `String`; `len(s)` is the number of UTF-8 bytes
  (`GoLen`), `[]byte(s)` is the UTF-8 encoding (`GoBytes`).
* A Go `[]byte` that may be `nil` is an `Option Bytes`.
* A Go `error` result is an `Option`: `none` is `nil`.
* A method with a pointer receiver or pointer argument returns the updated
  value next to its result.
* Imported libraries (pgx, bcrypt, jwt, base64, the clock) are parameters.
-/

namespace GymOps

/-! ## Go values -/

/-- Byte slices. -/
abbrev Bytes := List UInt8

/-- Go `len(s)` for a string: its length in bytes. -/
def GoLen (s : String) : Nat := s.utf8ByteSize

/-- Go `[]byte(s)`: the UTF-8 bytes of the string. -/
def GoBytes (s : String) : Bytes := s.toUTF8.data.toList

/-- Go `time.Time`, kept as the wall-clock instant in nanoseconds since the Unix epoch. -/
structure Time where
  unixNano : Int
  deriving DecidableEq, Repr

/-- Go `time.Hour`, a `time.Duration` in nanoseconds. -/
def Hour : Int := 3600 * 1000000000

/-- Go `t.Add(d)`. -/
def Time.Add (t : Time) (d : Int) : Time := ⟨t.unixNano + d⟩

/-- Go `t.Unix()`: whole seconds since the epoch (rounded down). -/
def Time.Unix (t : Time) : Int := t.unixNano / 1000000000

/-! ## Errors -/

/-- Error values produced by the imported libraries.  `pgError` is
`*pgconn.PgError` with the fields used here, `wrap` is an error that wraps
another one (`fmt.Errorf` with `%w`), `other` is any remaining error, known by
its message only. -/
inductive LibError where
  | pgxErrNoRows
  | pgError (severity message code constraintName : String)
  | bcryptErrMismatchedHashAndPassword
  | bcryptErrPasswordTooLong
  | other (msg : String)
  | wrap (msg : String) (inner : LibError)
  deriving DecidableEq, Repr

/-- Go `err.Error()`.  For `*pgconn.PgError` the text is
`Severity + ": " + Message + " (SQLSTATE " + Code + ")"`. -/
def LibError.Error : LibError → String
  | .pgxErrNoRows => "no rows in result set"
  | .pgError severity message code _ => severity ++ ": " ++ message ++ " (SQLSTATE " ++ code ++ ")"
  | .bcryptErrMismatchedHashAndPassword =>
      "crypto/bcrypt: hashedPassword is not the hash of the given password"
  | .bcryptErrPasswordTooLong => "bcrypt: password length exceeds 72 bytes"
  | .other msg => msg
  | .wrap msg _ => msg

/-- Go `errors.Is(err, target)` for a sentinel `target`: `err` is the target
or wraps it at some depth. -/
def errorsIs : LibError → LibError → Bool
  | .wrap msg inner, target =>
      if LibError.wrap msg inner = target then true else errorsIs inner target
  | err, target => decide (err = target)

/-- Values of Go type `error` returned by package `data`: its own two
sentinels (`errors.New` values, distinct from every library error) or a
library error passed through. -/
inductive GoError where
  | errRecordNotFound
  | errDuplicateEmail
  | lib (err : LibError)
  deriving DecidableEq, Repr

/-- Sentinel of `models.go`: `errors.New("record not found")`. -/
def ErrRecordNotFound : GoError := .errRecordNotFound

/-- Sentinel of `user.go`: `errors.New("email already exist")`. -/
def ErrDuplicateEmail : GoError := .errDuplicateEmail

/-! ## Data model -/

/-- Struct `password` of `user.go`. -/
structure password where
  plaintext : Option String
  hash : Option Bytes
  deriving DecidableEq, Repr

/-- Struct `User` of `user.go`. -/
structure User where
  ID : Int
  Fullname : String
  Email : String
  Password : password
  CreatedAt : Time
  UpdatedAt : Time
  deriving DecidableEq, Repr

/-- Zero value of `password`. -/
def password.zero : password := ⟨none, none⟩

/-- Zero value of `User` (`var user User`). -/
def User.zero : User := ⟨0, "", "", password.zero, ⟨0⟩, ⟨0⟩⟩

/-! ## Storage boundary (pgx) -/

/-- Values bound to named query arguments. -/
inductive SqlArg where
  | text (s : String)
  | int8 (i : Int)
  | bytea (b : Option Bytes)
  | timestamptz (t : Time)
  | credential (p : password)
  deriving DecidableEq, Repr

/-- Go `pgx.NamedArgs`: a map from argument name to value. -/
abbrev NamedArgs := List (String × SqlArg)

/-- The keys of a `NamedArgs` map. -/
def NamedArgs.keys (args : NamedArgs) : List String := args.map Prod.fst

/-- Columns `Scan` reads for a full user row. -/
structure UserRow where
  id : Int
  fullname : String
  email : String
  hash : Option Bytes
  createdAt : Time
  updatedAt : Time
  deriving DecidableEq, Repr

/-- Outcome of `QueryRow(...).Scan(&user.ID, &user.CreatedAt, &user.UpdatedAt)`.
`Scan` writes its destinations in order, column by column: an error leaves
the destinations before it written and the later ones untouched, and an error
can still arrive once all columns are read.  `failed` is an error before any
column is read, which is how a rejected write ends. -/
inductive InsertScan where
  | failed (err : LibError)
  | failedAfterID (id : Int) (err : LibError)
  | failedAfterCreatedAt (id : Int) (createdAt : Time) (err : LibError)
  | failedAfterUpdatedAt (id : Int) (createdAt updatedAt : Time) (err : LibError)
  | done (id : Int) (createdAt updatedAt : Time)
  deriving DecidableEq, Repr

/-- The error `Scan` returns. -/
def InsertScan.err : InsertScan → Option LibError
  | .failed err => some err
  | .failedAfterID _ err => some err
  | .failedAfterCreatedAt _ _ err => some err
  | .failedAfterUpdatedAt _ _ _ err => some err
  | .done _ _ _ => none

/-- The writes of `Scan` through `&user.ID`, `&user.CreatedAt`, `&user.UpdatedAt`. -/
def InsertScan.assign : InsertScan → User → User
  | .failed _, user => user
  | .failedAfterID id _, user => { user with ID := id }
  | .failedAfterCreatedAt id createdAt _, user => { user with ID := id, CreatedAt := createdAt }
  | .failedAfterUpdatedAt id createdAt updatedAt _, user =>
      { user with ID := id, CreatedAt := createdAt, UpdatedAt := updatedAt }
  | .done id createdAt updatedAt, user =>
      { user with ID := id, CreatedAt := createdAt, UpdatedAt := updatedAt }

/-- Outcome of `QueryRow(...).Scan(&user.Fullname, &user.Email, &user.Password,
&user.UpdatedAt)`, column by column as for `InsertScan`. -/
inductive UpdateScan where
  | failed (err : LibError)
  | failedAfterFullname (fullname : String) (err : LibError)
  | failedAfterEmail (fullname email : String) (err : LibError)
  | failedAfterPassword (fullname email : String) (pw : password) (err : LibError)
  | failedAfterUpdatedAt (fullname email : String) (pw : password) (updatedAt : Time)
      (err : LibError)
  | done (fullname email : String) (pw : password) (updatedAt : Time)
  deriving DecidableEq, Repr

/-- The error `Scan` returns. -/
def UpdateScan.err : UpdateScan → Option LibError
  | .failed err => some err
  | .failedAfterFullname _ err => some err
  | .failedAfterEmail _ _ err => some err
  | .failedAfterPassword _ _ _ err => some err
  | .failedAfterUpdatedAt _ _ _ _ err => some err
  | .done _ _ _ _ => none

/-- The writes of `Scan` through the four destinations of `Update`. -/
def UpdateScan.assign : UpdateScan → User → User
  | .failed _, user => user
  | .failedAfterFullname fullname _, user => { user with Fullname := fullname }
  | .failedAfterEmail fullname email _, user => { user with Fullname := fullname, Email := email }
  | .failedAfterPassword fullname email pw _, user =>
      { user with Fullname := fullname, Email := email, Password := pw }
  | .failedAfterUpdatedAt fullname email pw updatedAt _, user =>
      { user with Fullname := fullname, Email := email, Password := pw, UpdatedAt := updatedAt }
  | .done fullname email pw updatedAt, user =>
      { user with Fullname := fullname, Email := email, Password := pw, UpdatedAt := updatedAt }

/-- The connection pool as seen by `UserModel`: what
`QueryRow(ctx, query, args).Scan(...)` and `Exec(ctx, query, args)` yield for
a query text and its arguments, the five second deadline included among the
errors.  One field per shape of `Scan` destination list in `user.go`.  The
lookups scan into a local variable that is dropped on error, so for them the
outcome is the error or the whole row. -/
structure Pool where
  scanUser : String → NamedArgs → Except LibError UserRow
  scanInserted : String → NamedArgs → InsertScan
  scanUpdated : String → NamedArgs → UpdateScan
  execRowsAffected : String → NamedArgs → Except LibError Int

/-- Struct `UserModel` of `user.go`. -/
structure UserModel where
  dbpool : Pool

/-- Query text of `GetUserByEmail`. -/
def queryGetUserByEmail : String := "SELECT * FROM users WHERE email = @email"

/-- Arguments of `GetUserByEmail`. -/
def argsGetUserByEmail (email : String) : NamedArgs := [("email", .text email)]

/-- Query text of `GetUserByUsername`. -/
def queryGetUserByUsername : String := "SELECT * FROM users WHERE username = @username"

/-- Arguments of `GetUserByUsername`. -/
def argsGetUserByUsername (username : String) : NamedArgs := [("username", .text username)]

/-- Query text of `Insert`. -/
def queryInsert : String :=
  "INSERT INTO users (fullname, email, password)\n\t\tVALUES (@fullname, @email, @password)\n\t\tRETURNING id, created_at, updated_at"

/-- Arguments of `Insert`. -/
def argsInsert (user : User) : NamedArgs :=
  [("fullname", .text user.Fullname), ("email", .text user.Email),
   ("password", .bytea user.Password.hash)]

/-- Query text of `Update`. -/
def queryUpdate : String :=
  "UPDATE users\n\tSET fullname = @fullname, email = @email, password = @password, updated_at = @updated_at\n\tWHERE id = @userId\n\tRETURNING fullname, email, password, updated_at"

/-- Arguments of `Update`; `now` is the reading of `time.Now()`.  The map
literal of the source has these four entries. -/
def argsUpdate (user : User) (now : Time) : NamedArgs :=
  [("fullname", .text user.Fullname), ("email", .text user.Email),
   ("password", .credential user.Password), ("updated_at", .timestamptz now)]

/-- Query text of `Delete`. -/
def queryDelete : String := "DELETE FROM users WHERE id = @userId"

/-- Arguments of `Delete`. -/
def argsDelete (userId : Int) : NamedArgs := [("userId", .int8 userId)]

/-- The user value `Scan` fills in from a row, starting from the zero value. -/
def UserRow.toUser (row : UserRow) : User :=
  { User.zero with
    ID := row.id, Fullname := row.fullname, Email := row.email,
    Password := { password.zero with hash := row.hash },
    CreatedAt := row.createdAt, UpdatedAt := row.updatedAt }

/-- Method `UserModel.GetUserByEmail`. -/
def UserModel.GetUserByEmail (m : UserModel) (email : String) : Option User × Option GoError :=
  match m.dbpool.scanUser queryGetUserByEmail (argsGetUserByEmail email) with
  | .error err =>
      if errorsIs err .pgxErrNoRows then (none, some ErrRecordNotFound)
      else (none, some (.lib err))
  | .ok row => (some row.toUser, none)

/-- Method `UserModel.GetUserByUsername`. -/
def UserModel.GetUserByUsername (m : UserModel) (username : String) :
    Option User × Option GoError :=
  match m.dbpool.scanUser queryGetUserByUsername (argsGetUserByUsername username) with
  | .error err =>
      if errorsIs err .pgxErrNoRows then (none, some ErrRecordNotFound)
      else (none, some (.lib err))
  | .ok row => (some row.toUser, none)

/-- The literal `Insert` compares the error text with. -/
def duplicateEmailText : String :=
  "ERROR: duplicate key value violates unique constraint \"users_email_key\" (SQLSTATE 23505)"

/-- Method `UserModel.Insert`; returns the user after the call (with the
writes `Scan` made through the pointer) and the error. -/
def UserModel.Insert (m : UserModel) (user : User) : User × Option GoError :=
  let scan := m.dbpool.scanInserted queryInsert (argsInsert user)
  let user := scan.assign user
  match scan.err with
  | some err =>
      if err.Error = duplicateEmailText then (user, some ErrDuplicateEmail)
      else (user, some (.lib err))
  | none => (user, none)

/-- Method `UserModel.Update`; `now` is the reading of `time.Now()`.  The
parameter `userId` is not used by the body of the source. -/
def UserModel.Update (m : UserModel) (now : Time) (_userId : Int) (user : User) :
    User × Option GoError :=
  let scan := m.dbpool.scanUpdated queryUpdate (argsUpdate user now)
  match scan.err with
  | some err => (scan.assign user, some (.lib err))
  | none => (scan.assign user, none)

/-- Method `UserModel.Delete`. -/
def UserModel.Delete (m : UserModel) (userId : Int) : Option GoError :=
  match m.dbpool.execRowsAffected queryDelete (argsDelete userId) with
  | .error err => some (.lib err)
  | .ok row => if row = 0 then some ErrRecordNotFound else none

/-! ## Named placeholders of a query text (pgx `NamedArgs.RewriteQuery`) -/

/-- Function `isLetter` of the pgx query lexer. -/
def isLetter (c : Char) : Bool :=
  (decide ('a' ≤ c) && decide (c ≤ 'z')) || (decide ('A' ≤ c) && decide (c ≤ 'Z'))

/-- Characters that continue a named argument in the pgx query lexer. -/
def isNameChar (c : Char) : Bool :=
  isLetter c || (decide ('0' ≤ c) && decide (c ≤ '9')) || c == '_'

/-- States of the lexer on text without quotes and comments: plain text, just
after an `@`, and inside a name (characters collected in reverse). -/
inductive LexState where
  | raw
  | sawAt
  | inName (acc : List Char)

/-- The pgx lexer restricted to text without quotes and comments: an `@`
followed by a letter or `_` starts a named argument, which extends over
letters, digits and `_`. -/
def scanNamed : List Char → LexState → List String
  | [], .inName acc => [String.mk acc.reverse]
  | [], _ => []
  | c :: rest, .raw => scanNamed rest (if c = '@' then .sawAt else .raw)
  | c :: rest, .sawAt =>
      if isLetter c || c == '_' then scanNamed rest (.inName [c])
      else scanNamed rest (if c = '@' then .sawAt else .raw)
  | c :: rest, .inName acc =>
      if isNameChar c then scanNamed rest (.inName (c :: acc))
      else String.mk acc.reverse :: scanNamed rest (if c = '@' then .sawAt else .raw)

/-- The named placeholders `@name` of a query text, in order of appearance. -/
def placeholders (query : String) : List String := scanNamed query.data .raw

/-- The text has none of the characters that start a quoted section or a
comment in the pgx lexer, so `scanNamed` is the whole lexer on it. -/
def plainSql (query : String) : Bool :=
  query.data.all fun c =>
    c != Char.ofNat 39 && c != Char.ofNat 34 && c != '-' && c != '/'

/-- Every named placeholder of the query has an entry in the arguments. -/
def allBound (query : String) (args : NamedArgs) : Prop :=
  ∀ name ∈ placeholders query, name ∈ args.keys

/-! ## Credential codec -/

/-- The part of `golang.org/x/crypto/bcrypt` that `user.go` calls. -/
structure Bcrypt where
  GenerateFromPassword : Bytes → Int → Except LibError Bytes
  CompareHashAndPassword : Bytes → Bytes → Option LibError

/-- The documented contract of the two bcrypt functions: passwords over 72
bytes are rejected with `ErrPasswordTooLong`, shorter ones are hashed at any
cost within `MinCost..MaxCost` (the random salt source is taken to work), and
a generated hash compares equal to the password it came from. -/
structure Bcrypt.Lawful (lib : Bcrypt) : Prop where
  generate_too_long : ∀ pw cost, 72 < pw.length →
    lib.GenerateFromPassword pw cost = .error .bcryptErrPasswordTooLong
  generate_ok : ∀ pw cost, pw.length ≤ 72 → 4 ≤ cost → cost ≤ 31 →
    ∃ h, lib.GenerateFromPassword pw cost = .ok h
  compare_generated : ∀ pw cost h, lib.GenerateFromPassword pw cost = .ok h →
    lib.CompareHashAndPassword h pw = none

/-- A small instance of the bcrypt interface (the hash is the password
itself), used to instantiate statements at concrete inputs. -/
def Bcrypt.sample : Bcrypt where
  GenerateFromPassword pw _ :=
    if 72 < pw.length then .error .bcryptErrPasswordTooLong else .ok pw
  CompareHashAndPassword h pw :=
    if h = pw then none else some .bcryptErrMismatchedHashAndPassword

/-- The bytes of a possibly nil slice. -/
def sliceBytes (b : Option Bytes) : Bytes := b.getD []

/-- Method `password.Set`; returns the password value after the call and the error. -/
def password.Set (lib : Bcrypt) (p : password) (plaintextPassword : String) :
    password × Option GoError :=
  match lib.GenerateFromPassword (GoBytes plaintextPassword) 12 with
  | .error err => (p, some (.lib err))
  | .ok hash => ({ plaintext := some plaintextPassword, hash := some hash }, none)

/-- The decision of `password.Matches` on the result of the comparison. -/
def matchesResult (cmp : Option LibError) : Bool × Option GoError :=
  match cmp with
  | some err =>
      if errorsIs err .bcryptErrMismatchedHashAndPassword then (false, none)
      else (false, some (.lib err))
  | none => (true, none)

/-- Method `password.Matches`. -/
def password.Matches (lib : Bcrypt) (p : password) (plaintextPassword : String) :
    Bool × Option GoError :=
  matchesResult (lib.CompareHashAndPassword (sliceBytes p.hash) (GoBytes plaintextPassword))

/-! ## Validation -/

/-- Modelled from the spec: package `validator` is not among the sources.  A
validator holds the violations recorded so far, each keyed by a field name. -/
structure Validator where
  Errors : List (String × String)
  deriving DecidableEq, Repr

/-- Modelled from the spec: package `validator` is not among the sources.  A
fresh validator has no violation. -/
def Validator.New : Validator := ⟨[]⟩

/-- Modelled from the spec: package `validator` is not among the sources.
`Check` records the message under the key when the condition fails and leaves
the validator as it is when the condition holds. -/
def Validator.Check (v : Validator) (ok : Bool) (key message : String) : Validator :=
  if ok then v else ⟨v.Errors ++ [(key, message)]⟩

/-- Modelled from the spec: package `validator` is not among the sources.
`Matches(value, rx)` tests the value against a pattern; a pattern is given by
the set of strings it matches. -/
def validatorMatches (value : String) (rx : String → Bool) : Bool := rx value

/-- An error is recorded under the key. -/
def Validator.hasError (v : Validator) (key : String) : Prop :=
  ∃ message, (key, message) ∈ v.Errors

/-- The violations recorded under the key. -/
def Validator.errorsFor (v : Validator) (key : String) : List (String × String) :=
  v.Errors.filter fun e => e.1 == key

/-- Function `ValidateEmail`; `EmailRX` is the pattern `validator.EmailRX`. -/
def ValidateEmail (EmailRX : String → Bool) (v : Validator) (email : String) : Validator :=
  let v := v.Check (email != "") "email" "email is required"
  v.Check (validatorMatches email EmailRX) "email" "invalid email format"

/-- Function `ValidatePasswordPlainText`. -/
def ValidatePasswordPlainText (v : Validator) (password : String) : Validator :=
  let v := v.Check (password != "") "password" "password is required"
  v.Check (decide (GoLen password ≥ 8)) "password" "password must be greater than 8 characters"

/-- How a call ends: it returns, or it panics with a message. -/
inductive Outcome where
  | returns
  | panics (msg : String)
  deriving DecidableEq, Repr

/-- Function `ValidateUser`; returns the validator after the call and how the call ended. -/
def ValidateUser (EmailRX : String → Bool) (v : Validator) (user : User) : Validator × Outcome :=
  let v := v.Check (user.Fullname != "") "fullname" "fullname is required"
  let v := v.Check (decide (GoLen user.Fullname ≥ 10)) "fullname"
    "fullname must be greater than 10 characters"
  let v := ValidateEmail EmailRX v user.Email
  let v := match user.Password.plaintext with
    | some plaintext => ValidatePasswordPlainText v plaintext
    | none => v
  if user.Password.hash = none then (v, .panics "missing password hash for user")
  else (v, .returns)

/-! ## JSON view of a user (`encoding/json` on the struct tags) -/

/-- JSON values produced for a `User`. -/
inductive Json where
  | num (i : Int)
  | str (s : String)
  | obj (members : List (String × Json))
  deriving Repr

/-- The value of a struct field. -/
inductive FieldValue where
  | int64 (i : Int)
  | string (s : String)
  | time (t : Time)
  | credential (p : password)
  deriving DecidableEq, Repr

/-- An exported struct field: its Go name, the name in its `json` tag, its value. -/
structure StructField where
  name : String
  tag : String
  value : FieldValue
  deriving DecidableEq, Repr

/-- The fields of struct `User` with their `json` tags, in declaration order. -/
def User.structFields (u : User) : List StructField :=
  [⟨"ID", "id", .int64 u.ID⟩,
   ⟨"Fullname", "fullname", .string u.Fullname⟩,
   ⟨"Email", "email", .string u.Email⟩,
   ⟨"Password", "-", .credential u.Password⟩,
   ⟨"CreatedAt", "created_at", .time u.CreatedAt⟩,
   ⟨"UpdatedAt", "updated_at", .time u.UpdatedAt⟩]

/-- Encoding of one field value.  `timeJSON` is `time.Time.MarshalJSON`, which
fails for years outside 0..9999; a struct without exported fields encodes as
an empty object. -/
def marshalValue (timeJSON : Time → Except LibError String) : FieldValue → Except LibError Json
  | .int64 i => .ok (.num i)
  | .string s => .ok (.str s)
  | .time t =>
      match timeJSON t with
      | .ok s => .ok (.str s)
      | .error e => .error e
  | .credential _ => .ok (.obj [])

/-- Encoding of a field list: a field tagged `-` is left out, any other field
appears under its tag name. -/
def marshalFields (timeJSON : Time → Except LibError String) :
    List StructField → Except LibError (List (String × Json))
  | [] => .ok []
  | f :: fs =>
      if f.tag = "-" then marshalFields timeJSON fs
      else
        match marshalValue timeJSON f.value with
        | .error e => .error e
        | .ok v =>
            match marshalFields timeJSON fs with
            | .error e => .error e
            | .ok members => .ok ((f.tag, v) :: members)

/-- Go `json.Marshal(user)`: the members of the JSON object, in order. -/
def marshalUser (timeJSON : Time → Except LibError String) (u : User) :
    Except LibError (List (String × Json)) :=
  marshalFields timeJSON u.structFields

/-! ## Token issuer -/

/-- Values of JWT claims. -/
inductive ClaimValue where
  | str (s : String)
  | num (i : Int)
  deriving DecidableEq, Repr

/-- Go `jwt.MapClaims`. -/
abbrev MapClaims := List (String × ClaimValue)

/-- The value of a claim. -/
def MapClaims.get (claims : MapClaims) (key : String) : Option ClaimValue :=
  List.lookup key claims

/-- The libraries `GenerateToken` calls: `base64.StdEncoding.DecodeString` and
HS256 signing of a claims map with a key (`jwt.NewWithClaims` followed by
`SignedString`). -/
structure TokenLib where
  DecodeString : String → Except LibError Bytes
  SignedString : MapClaims → Bytes → Except LibError String

/-- The claims map of `GenerateToken`.  `now k` is the reading of the k-th
call of `time.Now()`: operands are evaluated in source order, so the `exp`
entry takes the first reading and the `iat` entry the second. -/
def tokenClaims (now : Nat → Time) (userId : Int) : MapClaims :=
  [("iss", .str "gym-ops"),
   ("sub", .num userId),
   ("exp", .num ((now 0).Add (Hour * 24)).Unix),
   ("iat", .num (now 1).Unix)]

/-- Function `GenerateToken`. -/
def GenerateToken (lib : TokenLib) (now : Nat → Time) (secretKey : String) (userId : Int) :
    String × Option GoError :=
  match lib.DecodeString secretKey with
  | .error err => ("", some (.lib err))
  | .ok secret =>
      match lib.SignedString (tokenClaims now userId) secret with
      | .error err => ("", some (.lib err))
      | .ok tokenString => (tokenString, none)

/-! ## Concrete inputs -/

/-- A storage error that is none of the recognised kinds. -/
def connectionRefused : LibError := .other "failed to connect: connection refused"

/-- A pool whose four operations have fixed outcomes. -/
def Pool.fixed (user : Except LibError UserRow) (inserted : InsertScan) (updated : UpdateScan)
    (rows : Except LibError Int) : Pool :=
  ⟨fun _ _ => user, fun _ _ => inserted, fun _ _ => updated, fun _ _ => rows⟩

/-- A model whose user lookups have the given outcome. -/
def UserModel.looksUp (user : Except LibError UserRow) : UserModel :=
  ⟨Pool.fixed user (.failed connectionRefused) (.failed connectionRefused)
    (.error connectionRefused)⟩

/-- A model whose inserts have the given outcome. -/
def UserModel.inserts (inserted : InsertScan) : UserModel :=
  ⟨Pool.fixed (.error connectionRefused) inserted (.failed connectionRefused)
    (.error connectionRefused)⟩

/-- A model whose statements have the given outcome. -/
def UserModel.executes (rows : Except LibError Int) : UserModel :=
  ⟨Pool.fixed (.error connectionRefused) (.failed connectionRefused)
    (.failed connectionRefused) rows⟩

/-- A stored row. -/
def janeRow : UserRow :=
  ⟨7, "Jane Doe Smith", "jane@example.com", some [36, 50, 97], ⟨1700000000000000000⟩,
    ⟨1700000000000000000⟩⟩

/-- A user ready for registration: valid fields and a hash. -/
def jane : User :=
  ⟨0, "Jane Doe Smith", "jane@example.com", ⟨some "longpassword1", some [36, 50, 97]⟩, ⟨0⟩, ⟨0⟩⟩

/-- A user with three invalid fields and a hash. -/
def badUser : User :=
  ⟨0, "Jane Doe", "not-an-email", ⟨some "short77", some [36, 50, 97]⟩, ⟨0⟩, ⟨0⟩⟩

/-- A user as read from storage: no plaintext. -/
def storedUser : User := janeRow.toUser

/-- A pattern for the concrete inputs: the text has an `@`. -/
def hasAt (s : String) : Bool := s.data.contains '@'

/-- A password of 73 bytes. -/
def longPassword : String := String.mk (List.replicate 73 'a')

/-- The unique violation of `users_email_key` as a server with German
messages reports it. -/
def germanDuplicate : LibError :=
  .pgError "FEHLER" "doppelter Schlüsselwert verletzt Unique-Constraint »users_email_key«"
    "23505" "users_email_key"

/-- The unique violation of `users_email_key` as a server with English
messages reports it. -/
def englishDuplicate : LibError :=
  .pgError "ERROR" "duplicate key value violates unique constraint \"users_email_key\""
    "23505" "users_email_key"

/-- The condition for a duplicate email in the words of the specification,
to be compared with the test `Insert` makes: the error is, or wraps, a
`PgError` with SQLSTATE 23505 on constraint `users_email_key`. -/
def isEmailUniqueViolation : LibError → Bool
  | .pgError _ _ code constraintName => code == "23505" && constraintName == "users_email_key"
  | .wrap _ inner => isEmailUniqueViolation inner
  | _ => false

/-- A clock whose first two readings lie 1 ns apart, on either side of a
second boundary. -/
def tickingClock : Nat → Time
  | 0 => ⟨1700000000999999999⟩
  | _ => ⟨1700000001000000000⟩

/-- A clock that stands still. -/
def frozenClock : Nat → Time := fun _ => ⟨1700000000000000000⟩

/-- A rendering of times for the concrete inputs. -/
def sampleTimeJSON : Time → Except LibError String := fun t => .ok (toString t.unixNano)

/-! ## Basic facts -/

theorem GoBytes_length (s : String) : (GoBytes s).length = GoLen s := by
  unfold GoBytes GoLen
  rw [← String.size_toUTF8]
  rfl

theorem Bcrypt.sample_lawful : Bcrypt.sample.Lawful where
  generate_too_long := by
    intro pw cost h
    simp [Bcrypt.sample, h]
  generate_ok := by
    intro pw cost h _ _
    exact ⟨pw, by simp [Bcrypt.sample, Nat.not_lt.mpr h]⟩
  compare_generated := by
    intro pw cost h hg
    by_cases hl : 72 < pw.length
    · simp [Bcrypt.sample, hl] at hg
    · simp only [Bcrypt.sample, hl, if_false] at hg
      cases hg
      simp [Bcrypt.sample]

/-! ## Credential codec: verification outcomes -/

/-- C2: `password.Matches` returns `(true, nil)` exactly when the bcrypt
comparison succeeds, `(false, nil)` exactly when the comparison reports a
hash/password mismatch, `(false, err)` with the comparison's own error in
every other case, and never `true` together with an error. -/
theorem password_Matches_outcomes (lib : Bcrypt) (p : password) (plaintextPassword : String) :
    (p.Matches lib plaintextPassword = (true, none) ↔
      lib.CompareHashAndPassword (sliceBytes p.hash) (GoBytes plaintextPassword) = none) ∧
    (p.Matches lib plaintextPassword = (false, none) ↔
      ∃ err, lib.CompareHashAndPassword (sliceBytes p.hash) (GoBytes plaintextPassword) = some err ∧
        errorsIs err .bcryptErrMismatchedHashAndPassword = true) ∧
    (∀ err, lib.CompareHashAndPassword (sliceBytes p.hash) (GoBytes plaintextPassword) = some err →
        errorsIs err .bcryptErrMismatchedHashAndPassword = false →
        p.Matches lib plaintextPassword = (false, some (.lib err))) ∧
    ¬ ((p.Matches lib plaintextPassword).1 = true ∧ (p.Matches lib plaintextPassword).2 ≠ none) := by
  unfold password.Matches matchesResult
  cases hc : lib.CompareHashAndPassword (sliceBytes p.hash) (GoBytes plaintextPassword) with
  | none => simp
  | some err =>
      cases hm : errorsIs err .bcryptErrMismatchedHashAndPassword <;> simp [hm]

/-- C2 at concrete inputs: a stored hash that is not a bcrypt hash of the
candidate gives `(false, nil)`. -/
theorem password_Matches_outcomes_witness :
    (⟨none, some [1, 2, 3]⟩ : password).Matches Bcrypt.sample "longpassword1" = (false, none) :=
  ((password_Matches_outcomes Bcrypt.sample ⟨none, some [1, 2, 3]⟩ "longpassword1").2.1).mpr
    ⟨.bcryptErrMismatchedHashAndPassword, by decide, by decide⟩

/-! ## User repository: error mapping -/

/-- C7: `Delete` returns the storage error unchanged when execution fails,
`ErrRecordNotFound` when the statement runs and affects zero rows, and nil
when it affects at least one row. -/
theorem Delete_outcomes (m : UserModel) (userId : Int) :
    (∀ err, m.dbpool.execRowsAffected queryDelete (argsDelete userId) = .error err →
      m.Delete userId = some (.lib err)) ∧
    (m.dbpool.execRowsAffected queryDelete (argsDelete userId) = .ok 0 →
      m.Delete userId = some ErrRecordNotFound) ∧
    (∀ rows, m.dbpool.execRowsAffected queryDelete (argsDelete userId) = .ok rows → 1 ≤ rows →
      m.Delete userId = none) := by
  unfold UserModel.Delete
  refine ⟨?_, ?_, ?_⟩
  · intro err h
    simp [h]
  · intro h
    simp [h]
  · intro rows h hrows
    have hne : rows ≠ 0 := by omega
    simp [h, hne]

/-- C7 at concrete inputs: a failed execution, zero rows and one row. -/
theorem Delete_outcomes_witness :
    (UserModel.executes (.error connectionRefused)).Delete 7 = some (.lib connectionRefused) ∧
    (UserModel.executes (.ok 0)).Delete 7 = some ErrRecordNotFound ∧
    (UserModel.executes (.ok 1)).Delete 7 = none :=
  ⟨(Delete_outcomes (UserModel.executes (.error connectionRefused)) 7).1 connectionRefused rfl,
   (Delete_outcomes (UserModel.executes (.ok 0)) 7).2.1 rfl,
   (Delete_outcomes (UserModel.executes (.ok 1)) 7).2.2 1 rfl (by decide)⟩

/-- C8: `GetUserByEmail` and `GetUserByUsername` return
`(nil, ErrRecordNotFound)` exactly when the query ends with an error that is
`pgx.ErrNoRows`, `(nil, err)` with the original error for every other
failure, and the scanned user with a nil error when a row is read. -/
theorem GetUser_outcomes (m : UserModel) (key : String) :
    ((m.GetUserByEmail key = (none, some ErrRecordNotFound) ↔
        ∃ err, m.dbpool.scanUser queryGetUserByEmail (argsGetUserByEmail key) = .error err ∧
          errorsIs err .pgxErrNoRows = true) ∧
      (∀ err, m.dbpool.scanUser queryGetUserByEmail (argsGetUserByEmail key) = .error err →
        errorsIs err .pgxErrNoRows = false → m.GetUserByEmail key = (none, some (.lib err))) ∧
      (∀ row, m.dbpool.scanUser queryGetUserByEmail (argsGetUserByEmail key) = .ok row →
        m.GetUserByEmail key = (some row.toUser, none))) ∧
    ((m.GetUserByUsername key = (none, some ErrRecordNotFound) ↔
        ∃ err, m.dbpool.scanUser queryGetUserByUsername (argsGetUserByUsername key) = .error err ∧
          errorsIs err .pgxErrNoRows = true) ∧
      (∀ err, m.dbpool.scanUser queryGetUserByUsername (argsGetUserByUsername key) = .error err →
        errorsIs err .pgxErrNoRows = false → m.GetUserByUsername key = (none, some (.lib err))) ∧
      (∀ row, m.dbpool.scanUser queryGetUserByUsername (argsGetUserByUsername key) = .ok row →
        m.GetUserByUsername key = (some row.toUser, none))) := by
  unfold UserModel.GetUserByEmail UserModel.GetUserByUsername
  constructor
  · cases hs : m.dbpool.scanUser queryGetUserByEmail (argsGetUserByEmail key) with
    | error err =>
        cases hn : errorsIs err .pgxErrNoRows <;> simp [hn, ErrRecordNotFound]
    | ok row => simp
  · cases hs : m.dbpool.scanUser queryGetUserByUsername (argsGetUserByUsername key) with
    | error err =>
        cases hn : errorsIs err .pgxErrNoRows <;> simp [hn, ErrRecordNotFound]
    | ok row => simp

/-- C8 at concrete inputs: no row, a refused connection and a stored row. -/
theorem GetUser_outcomes_witness :
    (UserModel.looksUp (.error .pgxErrNoRows)).GetUserByEmail "jane@example.com"
      = (none, some ErrRecordNotFound) ∧
    (UserModel.looksUp (.error connectionRefused)).GetUserByUsername "jane"
      = (none, some (.lib connectionRefused)) ∧
    (UserModel.looksUp (.ok janeRow)).GetUserByEmail "jane@example.com"
      = (some janeRow.toUser, none) :=
  ⟨((GetUser_outcomes (UserModel.looksUp (.error .pgxErrNoRows)) "jane@example.com").1.1).mpr
      ⟨.pgxErrNoRows, rfl, by decide⟩,
   (GetUser_outcomes (UserModel.looksUp (.error connectionRefused)) "jane").2.2.1
      connectionRefused rfl (by decide),
   (GetUser_outcomes (UserModel.looksUp (.ok janeRow)) "jane@example.com").1.2.2 janeRow rfl⟩

/-! ## Credential codec: hashing then verifying -/

/-- C1 as stated fails: the 73-byte password passes
`ValidatePasswordPlainText` without a violation, and with every bcrypt that
meets the library contract (there is one) `Set` returns
`bcrypt.ErrPasswordTooLong` and leaves the password value as it was. -/
theorem Set_rejects_accepted_long_password :
    (ValidatePasswordPlainText Validator.New longPassword).Errors = [] ∧
    Bcrypt.sample.Lawful ∧
    (∀ lib : Bcrypt, lib.Lawful → ∀ p : password,
      p.Set lib longPassword = (p, some (.lib .bcryptErrPasswordTooLong))) := by
  refine ⟨by decide, Bcrypt.sample_lawful, ?_⟩
  intro lib hlib p
  have hlen : 72 < (GoBytes longPassword).length := by
    rw [GoBytes_length]
    decide
  unfold password.Set
  rw [hlib.generate_too_long _ 12 hlen]

/-- C1, amended: for every plaintext that `ValidatePasswordPlainText` accepts
and that has at most 72 bytes, with a bcrypt that meets the library contract,
`Set` returns nil, stores the plaintext and a hash, and `Matches` with the
same plaintext on the resulting value returns `(true, nil)`. -/
theorem Set_then_Matches (lib : Bcrypt) (hlib : lib.Lawful) (p : password)
    (plaintextPassword : String)
    (_hvalid : (ValidatePasswordPlainText Validator.New plaintextPassword).Errors = [])
    (hlen : GoLen plaintextPassword ≤ 72) :
    (p.Set lib plaintextPassword).2 = none ∧
    (p.Set lib plaintextPassword).1.plaintext = some plaintextPassword ∧
    (p.Set lib plaintextPassword).1.hash ≠ none ∧
    (p.Set lib plaintextPassword).1.Matches lib plaintextPassword = (true, none) := by
  have hb : (GoBytes plaintextPassword).length ≤ 72 := by
    rw [GoBytes_length]
    exact hlen
  obtain ⟨h, hgen⟩ := hlib.generate_ok (GoBytes plaintextPassword) 12 hb (by decide) (by decide)
  have hcmp := hlib.compare_generated _ _ _ hgen
  unfold password.Set
  rw [hgen]
  simp [password.Matches, sliceBytes, hcmp, matchesResult]

/-- C1, amended, at a concrete password of 13 bytes. -/
theorem Set_then_Matches_witness :
    (password.zero.Set Bcrypt.sample "longpassword1").2 = none ∧
    (password.zero.Set Bcrypt.sample "longpassword1").1.plaintext = some "longpassword1" ∧
    (password.zero.Set Bcrypt.sample "longpassword1").1.hash ≠ none ∧
    (password.zero.Set Bcrypt.sample "longpassword1").1.Matches Bcrypt.sample "longpassword1"
      = (true, none) :=
  Set_then_Matches Bcrypt.sample Bcrypt.sample_lawful password.zero "longpassword1"
    (by decide) (by decide)

/-! ## User repository: insert -/

theorem Insert_user_after (m : UserModel) (user : User) :
    (m.Insert user).1 = (m.dbpool.scanInserted queryInsert (argsInsert user)).assign user := by
  unfold UserModel.Insert
  cases h : (m.dbpool.scanInserted queryInsert (argsInsert user)).err with
  | none => simp [h]
  | some err => by_cases ht : err.Error = duplicateEmailText <;> simp [h, ht]

theorem Insert_nil_iff_done (m : UserModel) (user : User) :
    (m.Insert user).2 = none ↔
      ∃ id createdAt updatedAt,
        m.dbpool.scanInserted queryInsert (argsInsert user) = .done id createdAt updatedAt ∧
        (m.Insert user).1 =
          { user with ID := id, CreatedAt := createdAt, UpdatedAt := updatedAt } := by
  rw [Insert_user_after]
  unfold UserModel.Insert
  cases hs : m.dbpool.scanInserted queryInsert (argsInsert user) with
  | done id createdAt updatedAt => simp [InsertScan.err, InsertScan.assign]
  | failed err =>
      by_cases ht : err.Error = duplicateEmailText <;> simp [InsertScan.err, ht]
  | failedAfterID id err =>
      by_cases ht : err.Error = duplicateEmailText <;> simp [InsertScan.err, ht]
  | failedAfterCreatedAt id createdAt err =>
      by_cases ht : err.Error = duplicateEmailText <;> simp [InsertScan.err, ht]
  | failedAfterUpdatedAt id createdAt updatedAt err =>
      by_cases ht : err.Error = duplicateEmailText <;> simp [InsertScan.err, ht]

theorem Insert_error_is_sentinel_or_unchanged (m : UserModel) (user : User) (err : LibError)
    (h : (m.dbpool.scanInserted queryInsert (argsInsert user)).err = some err) :
    (m.Insert user).2 = some ErrDuplicateEmail ∨ (m.Insert user).2 = some (.lib err) := by
  unfold UserModel.Insert
  by_cases ht : err.Error = duplicateEmailText <;> simp [h, ht]

/-- C5 at an input where it fails: the write is rejected with the unique
violation on `users_email_key`, SQLSTATE 23505, reported by a server with
German messages.  `Insert` returns that error as it is and not
`ErrDuplicateEmail`, although it does return `ErrDuplicateEmail` for the same
violation reported with English messages. -/
theorem Insert_keeps_german_duplicate :
    isEmailUniqueViolation germanDuplicate = true ∧
    (UserModel.inserts (.failed germanDuplicate)).Insert jane
      = (jane, some (.lib germanDuplicate)) ∧
    ((UserModel.inserts (.failed germanDuplicate)).Insert jane).2 ≠ some ErrDuplicateEmail ∧
    isEmailUniqueViolation englishDuplicate = true ∧
    (UserModel.inserts (.failed englishDuplicate)).Insert jane
      = (jane, some ErrDuplicateEmail) := by
  refine ⟨by decide, by decide, by decide, by decide, by decide⟩

theorem Insert_keeps_columns_read_before_error :
    (UserModel.inserts (.failedAfterID 7 connectionRefused)).Insert jane
      = ({ jane with ID := 7 }, some (.lib connectionRefused)) := by
  decide

/-! ## Validation -/

theorem Validator.hasError_Check_of_failed (v : Validator) (key message : String) :
    (v.Check false key message).hasError key :=
  ⟨message, by simp [Validator.Check]⟩

theorem Validator.hasError_Check_of_hasError (v : Validator) (ok : Bool)
    (key key2 message : String) (h : v.hasError key) :
    (v.Check ok key2 message).hasError key := by
  obtain ⟨msg, hmem⟩ := h
  refine ⟨msg, ?_⟩
  cases ok <;> simp [Validator.Check, hmem]

theorem Validator.errorsFor_Check_of_ne (v : Validator) (ok : Bool)
    (key key2 message : String) (h : key2 ≠ key) :
    (v.Check ok key2 message).errorsFor key = v.errorsFor key := by
  cases ok <;> simp [Validator.Check, Validator.errorsFor, List.filter_append, h]

theorem Validator.hasError_iff_errorsFor (v : Validator) (key : String) :
    v.hasError key ↔ v.errorsFor key ≠ [] := by
  unfold Validator.hasError Validator.errorsFor
  constructor
  · rintro ⟨message, hmem⟩ hnil
    have : (key, message) ∈ v.Errors.filter fun e => e.1 == key := by
      simp [List.mem_filter, hmem]
    rw [hnil] at this
    simp at this
  · intro hne
    obtain ⟨e, he⟩ := List.exists_mem_of_ne_nil _ hne
    rw [List.mem_filter] at he
    have hk : e.1 = key := by simpa using he.2
    exact ⟨e.2, by rw [← hk]; exact he.1⟩

theorem ValidateEmail_hasError_of_hasError (EmailRX : String → Bool) (v : Validator)
    (email key : String) (h : v.hasError key) : (ValidateEmail EmailRX v email).hasError key := by
  unfold ValidateEmail
  exact Validator.hasError_Check_of_hasError _ _ _ _ _
    (Validator.hasError_Check_of_hasError _ _ _ _ _ h)

theorem ValidatePasswordPlainText_hasError_of_hasError (v : Validator)
    (plaintext key : String) (h : v.hasError key) :
    (ValidatePasswordPlainText v plaintext).hasError key := by
  unfold ValidatePasswordPlainText
  exact Validator.hasError_Check_of_hasError _ _ _ _ _
    (Validator.hasError_Check_of_hasError _ _ _ _ _ h)

/-- C3: for a user with a hash, a fullname under 10 bytes, an email the
pattern rejects and a plaintext under 8 bytes, `ValidateUser` on an empty
validator returns and has recorded an error under each of `fullname`, `email`
and `password`; and for a user without plaintext it records nothing under
`password`, on any validator and whatever the other fields are. -/
theorem ValidateUser_accumulates (EmailRX : String → Bool) (user : User) :
    (user.Password.hash ≠ none → GoLen user.Fullname < 10 → EmailRX user.Email = false →
      ∀ plaintext, user.Password.plaintext = some plaintext → GoLen plaintext < 8 →
        (ValidateUser EmailRX Validator.New user).2 = .returns ∧
        (ValidateUser EmailRX Validator.New user).1.hasError "fullname" ∧
        (ValidateUser EmailRX Validator.New user).1.hasError "email" ∧
        (ValidateUser EmailRX Validator.New user).1.hasError "password") ∧
    (user.Password.plaintext = none →
      ¬ (ValidateUser EmailRX Validator.New user).1.hasError "password" ∧
      ∀ v : Validator,
        (ValidateUser EmailRX v user).1.errorsFor "password" = v.errorsFor "password") := by
  constructor
  · intro hhash hname hemail plaintext hplain hpw
    have hname2 : decide (GoLen user.Fullname ≥ 10) = false := by
      simp only [decide_eq_false_iff_not]
      omega
    have hpw2 : decide (GoLen plaintext ≥ 8) = false := by
      simp only [decide_eq_false_iff_not]
      omega
    unfold ValidateUser
    simp only [hplain, hhash, if_false, hname2, hpw2]
    refine ⟨trivial, ?_, ?_, ?_⟩
    · apply ValidatePasswordPlainText_hasError_of_hasError
      apply ValidateEmail_hasError_of_hasError
      exact Validator.hasError_Check_of_failed _ _ _
    · apply ValidatePasswordPlainText_hasError_of_hasError
      unfold ValidateEmail validatorMatches
      rw [hemail]
      exact Validator.hasError_Check_of_failed _ _ _
    · unfold ValidatePasswordPlainText
      simp only [hpw2]
      exact Validator.hasError_Check_of_failed _ _ _
  · intro hplain
    have hall : ∀ v : Validator,
        (ValidateUser EmailRX v user).1.errorsFor "password" = v.errorsFor "password" := by
      intro v
      unfold ValidateUser ValidateEmail
      simp only [hplain]
      have hfn : ("fullname" : String) ≠ "password" := by decide
      have hem : ("email" : String) ≠ "password" := by decide
      split <;>
        simp only [Validator.errorsFor_Check_of_ne _ _ _ _ _ hfn,
          Validator.errorsFor_Check_of_ne _ _ _ _ _ hem]
    refine ⟨?_, hall⟩
    rw [Validator.hasError_iff_errorsFor, hall Validator.New]
    simp [Validator.errorsFor, Validator.New]

/-- C3 at concrete inputs: the user with three invalid fields gets all three
keys, the user read from storage gets no `password` error. -/
theorem ValidateUser_accumulates_witness :
    ((ValidateUser hasAt Validator.New badUser).2 = .returns ∧
      (ValidateUser hasAt Validator.New badUser).1.hasError "fullname" ∧
      (ValidateUser hasAt Validator.New badUser).1.hasError "email" ∧
      (ValidateUser hasAt Validator.New badUser).1.hasError "password") ∧
    ¬ (ValidateUser hasAt Validator.New storedUser).1.hasError "password" :=
  ⟨(ValidateUser_accumulates hasAt badUser).1 (by decide) (by decide) (by decide)
      "short77" rfl (by decide),
   ((ValidateUser_accumulates hasAt storedUser).2 rfl).1⟩

/-- C9: `ValidateUser` panics, with the message of the source, exactly when
the password hash is nil, and returns exactly when it is present, for every
validator and whatever the fullname, email and plaintext are. -/
theorem ValidateUser_panics_iff_hash_missing (EmailRX : String → Bool) (v : Validator)
    (user : User) :
    ((ValidateUser EmailRX v user).2 = .panics "missing password hash for user" ↔
      user.Password.hash = none) ∧
    ((∃ msg, (ValidateUser EmailRX v user).2 = .panics msg) ↔ user.Password.hash = none) ∧
    ((ValidateUser EmailRX v user).2 = .returns ↔ user.Password.hash ≠ none) := by
  unfold ValidateUser
  by_cases h : user.Password.hash = none <;> simp [h]

/-- C9 at concrete inputs: the stored user returns, the same user without
its hash panics. -/
theorem ValidateUser_panics_iff_hash_missing_witness :
    (ValidateUser hasAt Validator.New jane).2 = .returns ∧
    (ValidateUser hasAt Validator.New { jane with Password := ⟨some "longpassword1", none⟩ }).2
      = .panics "missing password hash for user" :=
  ⟨((ValidateUser_panics_iff_hash_missing hasAt Validator.New jane).2.2).mpr (by decide),
   ((ValidateUser_panics_iff_hash_missing hasAt Validator.New
      { jane with Password := ⟨some "longpassword1", none⟩ }).1).mpr rfl⟩

/-! ## JSON view of a user -/

/-- C6: whenever a user is encoded, the JSON object has exactly the members
`id`, `fullname`, `email`, `created_at` and `updated_at`, holding the
corresponding fields; and the result of encoding does not depend on the
`Password` field, plaintext or hash. -/
theorem marshalUser_hides_password (timeJSON : Time → Except LibError String) (u : User) :
    (∀ members, marshalUser timeJSON u = .ok members →
      members.map Prod.fst = ["id", "fullname", "email", "created_at", "updated_at"]) ∧
    (∀ created updated, timeJSON u.CreatedAt = .ok created → timeJSON u.UpdatedAt = .ok updated →
      marshalUser timeJSON u = .ok
        [("id", .num u.ID), ("fullname", .str u.Fullname), ("email", .str u.Email),
         ("created_at", .str created), ("updated_at", .str updated)]) ∧
    (∀ pw : password, marshalUser timeJSON { u with Password := pw } = marshalUser timeJSON u) := by
  refine ⟨?_, ?_, ?_⟩
  · intro members h
    unfold marshalUser User.structFields at h
    simp only [marshalFields, marshalValue] at h
    cases hc : timeJSON u.CreatedAt with
    | error e => simp [hc] at h
    | ok created =>
        cases hu : timeJSON u.UpdatedAt with
        | error e => simp [hc, hu] at h
        | ok updated =>
            simp [hc, hu] at h
            rw [← h]
            rfl
  · intro created updated hc hu
    unfold marshalUser User.structFields
    simp [marshalFields, marshalValue, hc, hu]
  · intro pw
    unfold marshalUser User.structFields
    simp [marshalFields]

/-- C6 at concrete inputs: the member names for the registered user, and the
same encoding once the password material is removed. -/
theorem marshalUser_hides_password_witness :
    (∀ members, marshalUser sampleTimeJSON jane = .ok members →
      members.map Prod.fst = ["id", "fullname", "email", "created_at", "updated_at"]) ∧
    marshalUser sampleTimeJSON jane = .ok
      [("id", .num 0), ("fullname", .str "Jane Doe Smith"), ("email", .str "jane@example.com"),
       ("created_at", .str (toString (0 : Int))), ("updated_at", .str (toString (0 : Int)))] ∧
    marshalUser sampleTimeJSON { jane with Password := password.zero }
      = marshalUser sampleTimeJSON jane :=
  ⟨(marshalUser_hides_password sampleTimeJSON jane).1,
   (marshalUser_hides_password sampleTimeJSON jane).2.1 _ _ rfl rfl,
   (marshalUser_hides_password sampleTimeJSON jane).2.2 password.zero⟩

/-! ## Token issuer -/

theorem GenerateToken_signs_tokenClaims (lib : TokenLib) (now : Nat → Time) (secretKey : String)
    (userId : Int) (secret : Bytes) (h : lib.DecodeString secretKey = .ok secret) :
    GenerateToken lib now secretKey userId =
      match lib.SignedString (tokenClaims now userId) secret with
      | .error err => ("", some (.lib err))
      | .ok tokenString => (tokenString, none) := by
  unfold GenerateToken
  rw [h]

theorem Time.Unix_Add_day (t : Time) : (t.Add (Hour * 24)).Unix = t.Unix + 86400 := by
  unfold Time.Add Time.Unix Hour
  have h : (3600 * 1000000000 * 24 : Int) = 86400 * 1000000000 := by norm_num
  rw [h]
  exact Int.add_mul_ediv_right _ _ (by norm_num)

theorem tokenClaims_values (now : Nat → Time) (userId : Int) :
    (tokenClaims now userId).get "iss" = some (.str "gym-ops") ∧
    (tokenClaims now userId).get "sub" = some (.num userId) ∧
    (tokenClaims now userId).get "iat" = some (.num (now 1).Unix) ∧
    (tokenClaims now userId).get "exp" = some (.num ((now 0).Unix + 86400)) := by
  refine ⟨rfl, rfl, rfl, ?_⟩
  rw [← Time.Unix_Add_day]
  rfl

/-- C4 at an input where it fails: with a valid key, user id 42 and a clock
whose two readings lie 1 ns apart across a second boundary, the signed claims
have `iat = 1700000001` and `exp = 1700086400`, one second short of
`iat + 86400`; `iss` and `sub` are as stated. -/
theorem GenerateToken_expiry_short_of_a_day :
    (tokenClaims tickingClock 42).get "iss" = some (.str "gym-ops") ∧
    (tokenClaims tickingClock 42).get "sub" = some (.num 42) ∧
    (tokenClaims tickingClock 42).get "iat" = some (.num 1700000001) ∧
    (tokenClaims tickingClock 42).get "exp" = some (.num 1700086400) ∧
    (tokenClaims tickingClock 42).get "exp" ≠ some (.num (1700000001 + 86400)) ∧
    (∀ (lib : TokenLib) (secret : Bytes) (token : String),
      lib.DecodeString "c2VjcmV0" = .ok secret →
      lib.SignedString (tokenClaims tickingClock 42) secret = .ok token →
      GenerateToken lib tickingClock "c2VjcmV0" 42 = (token, none)) := by
  refine ⟨by decide, by decide, by decide, by decide, by decide, ?_⟩
  intro lib secret token hd hs
  rw [GenerateToken_signs_tokenClaims lib _ _ _ secret hd, hs]

/-! ## Named query arguments -/

theorem queries_are_plain :
    plainSql queryGetUserByEmail = true ∧ plainSql queryGetUserByUsername = true ∧
    plainSql queryInsert = true ∧ plainSql queryUpdate = true ∧ plainSql queryDelete = true := by
  refine ⟨by decide, by decide, by decide, by decide, by decide⟩

theorem lookups_insert_delete_bind_placeholders (key : String) (user : User) (userId : Int) :
    allBound queryGetUserByEmail (argsGetUserByEmail key) ∧
    allBound queryGetUserByUsername (argsGetUserByUsername key) ∧
    allBound queryInsert (argsInsert user) ∧
    allBound queryDelete (argsDelete userId) := by
  have h1 : placeholders queryGetUserByEmail = ["email"] := by decide
  have h2 : placeholders queryGetUserByUsername = ["username"] := by decide
  have h3 : placeholders queryInsert = ["fullname", "email", "password"] := by decide
  have h4 : placeholders queryDelete = ["userId"] := by decide
  unfold allBound
  rw [h1, h2, h3, h4]
  simp [NamedArgs.keys, argsGetUserByEmail, argsGetUserByUsername, argsInsert, argsDelete]

/-- C10 at an input where it fails: the text of `Update` has the placeholder
`@userId` in its WHERE clause, and the arguments `Update` passes have the keys
`fullname`, `email`, `password` and `updated_at` only, for every user id and
user, so `@userId` is not bound. -/
theorem Update_leaves_userId_unbound :
    placeholders queryUpdate = ["fullname", "email", "password", "updated_at", "userId"] ∧
    (∀ (user : User) (now : Time),
      (argsUpdate user now).keys = ["fullname", "email", "password", "updated_at"]) ∧
    (∀ (user : User) (now : Time), "userId" ∉ (argsUpdate user now).keys) ∧
    (∀ (user : User) (now : Time), ¬ allBound queryUpdate (argsUpdate user now)) := by
  have hp : placeholders queryUpdate
      = ["fullname", "email", "password", "updated_at", "userId"] := by decide
  have hk : ∀ (user : User) (now : Time),
      (argsUpdate user now).keys = ["fullname", "email", "password", "updated_at"] := by
    intro user now
    rfl
  have hn : ∀ (user : User) (now : Time), "userId" ∉ (argsUpdate user now).keys := by
    intro user now
    rw [hk]
    decide
  refine ⟨hp, hk, hn, ?_⟩
  intro user now hall
  exact hn user now (hall "userId" (by rw [hp]; decide))

end GymOps
